import Mathlib

/-!
# Verification of the go-tease connection-teasing library

Shallow embedding of the `tease` Go package: the dual-mode connection
wrappers (`Server`, `Client`), the forward-only multi-reader
(`forwardMultiReadSeeker`), the tee-capturing reader (`teeReadSeeker`)
and the buffered replay reader (`Reader`), together with theorems about
the buffering / replay / pipe behaviour.

Conventions of the embedding:
* bytes are modelled as `Nat` values; byte slices as `List Nat`;
* the wrapped `net.Conn` is modelled as a deterministic duplex stream: a
  queue of bytes still to be read, the accumulated list of bytes written
  to it, and a closed flag.  `Read` delivers `min requested available`
  bytes and reports end-of-data only on an empty queue;
* Go's multiple return values `(n, err)` become tuples; `error` becomes
  `Option Err`; every state mutation is explicit state passing.
-/

namespace Tease

/-- The package-level error values of the source (`errClosed`,
`errHasWriten`, `errAlreadyPipe`, `errMaxBuffer`), `io.EOF`, and the
seek errors produced by the seeker components. -/
inductive Err where
  | closed
  | hasWriten
  | alreadyPipe
  | maxBuffer
  | eof
  | seekEnd
  | seekWhence
  | seekNegative
  | seekBackward
  | pipedBackward
  deriving DecidableEq, Repr

/-- Deterministic model of the wrapped `net.Conn`: bytes still to be
delivered by `Read`, bytes written so far, and whether it was closed. -/
structure Conn where
  toRead : List Nat
  written : List Nat
  closed : Bool
  deriving DecidableEq, Repr

/-- `conn.Read(b)` with `len(b) = k`: delivers `min k available` bytes
from the front of the queue; end-of-data when the queue is empty. -/
def Conn.read (c : Conn) (k : Nat) : List Nat × Conn × Option Err :=
  if k = 0 then ([], c, none)
  else if c.toRead = [] then ([], c, some .eof)
  else (c.toRead.take k, { c with toRead := c.toRead.drop k }, none)

/-- `conn.Write(b)`: appends to the written transcript, returns `len b`. -/
def Conn.write (c : Conn) (b : List Nat) : Nat × Conn :=
  (b.length, { c with written := c.written ++ b })

/-- `conn.Close()`. -/
def Conn.close (c : Conn) : Conn :=
  { c with closed := true }

/-- The `Server` wrapper state (src/client.go, `type Server struct`). -/
structure Server where
  conn : Conn
  isPiped : Bool
  err : Option Err
  MaxBuffer : Nat
  rawInput : List Nat
  inputCnt : Nat
  rawOutput : List Nat
  deriving DecidableEq, Repr

/-- `NewServer` (src/client.go): wraps a live stream, `MaxBuffer = 1024`. -/
def NewServer (conn : Conn) : Server :=
  { conn := conn, isPiped := false, err := none, MaxBuffer := 1024,
    rawInput := [], inputCnt := 0, rawOutput := [] }

/-- Result of a wrapper read: the bytes copied into the caller's slice
(`n` is their length), the returned error, and the new state. -/
structure SRes where
  bytes : List Nat
  err : Option Err
  st : Server
  deriving DecidableEq, Repr

/-- `Server.read` (src/client.go lines 333-397).  The source's opening
guard `if err != nil` tests the function's own named return value, which
is always nil at that point (it is never assigned before the test), so
it never fires and contributes no branch here. -/
def Server.read (c : Server) (k : Nat) : SRes :=
  if c.isPiped then
    -- piped: drain any retained input first, then pass through
    if c.rawInput = [] then
      let r := c.conn.read k
      ⟨r.1, r.2.2, { c with conn := r.2.1, err := r.2.2 }⟩
    else
      let n := min k c.rawInput.length
      if k ≤ c.rawInput.length then
        ⟨c.rawInput.take k, none, { c with rawInput := c.rawInput.drop n }⟩
      else
        let r := c.conn.read (k - n)
        ⟨c.rawInput.take k ++ r.1, r.2.2,
          { c with rawInput := [], conn := r.2.1, err := r.2.2 }⟩
  else if c.rawOutput ≠ [] then
    -- "Has Written" state: reading now is a protocol violation
    ⟨[], some .hasWriten, { c with err := some .hasWriten }⟩
  else if c.inputCnt + k > c.rawInput.length then
    if c.inputCnt + k > c.MaxBuffer then
      ⟨[], some .maxBuffer,
        { c with err := some .maxBuffer, conn := c.conn.close }⟩
    else
      -- top up the buffer from the connection
      let r := c.conn.read (c.inputCnt + k - c.rawInput.length)
      if r.2.2.isSome then
        ⟨[], r.2.2, { c with conn := r.2.1, err := r.2.2 }⟩
      else
        let c2 : Server :=
          { c with conn := r.2.1, err := none, rawInput := c.rawInput ++ r.1 }
        let bytes := (c2.rawInput.drop c2.inputCnt).take k
        ⟨bytes, none, { c2 with inputCnt := c2.inputCnt + bytes.length }⟩
  else
    let bytes := (c.rawInput.drop c.inputCnt).take k
    ⟨bytes, none, { c with inputCnt := c.inputCnt + bytes.length }⟩

/-- `Server.Read` (src/client.go lines 308-316): short circuit for pipe
mode with no retained input, otherwise the buffered path. -/
def Server.Read (c : Server) (k : Nat) : SRes :=
  if c.isPiped ∧ c.rawInput = [] then
    let r := c.conn.read k
    ⟨r.1, r.2.2, { c with conn := r.2.1 }⟩
  else c.read k

/-- `Server.write` (src/client.go lines 412-433): buffer only; enforce
`MaxBuffer`.  The dead `if err != nil` guard is as in `Server.read`. -/
def Server.write (c : Server) (b : List Nat) : Nat × Option Err × Server :=
  if c.rawOutput.length + b.length > c.MaxBuffer then
    (0, some .maxBuffer, { c with err := some .maxBuffer, conn := c.conn.close })
  else
    (b.length, none, { c with rawOutput := c.rawOutput ++ b })

/-- `Server.Write` (src/client.go lines 402-410). -/
def Server.Write (c : Server) (b : List Nat) : Nat × Option Err × Server :=
  if c.isPiped then
    let r := c.conn.write b
    (r.1, none, { c with conn := r.2 })
  else c.write b

/-- `Server.Pipe` (src/client.go lines 281-303): trim the consumed part
of the input buffer, flush the whole output buffer (it is not cleared),
reset the cursor, mark piped. -/
def Server.Pipe (c : Server) : Server × Option Err :=
  let c1 := if c.inputCnt > 0 then { c with rawInput := c.rawInput.drop c.inputCnt } else c
  if c1.rawOutput ≠ [] then
    let r := c1.conn.write c1.rawOutput
    ({ c1 with conn := r.2, err := none, inputCnt := 0, isPiped := true }, none)
  else
    ({ c1 with inputCnt := 0, isPiped := true }, none)

/-- `Server.Replay` (src/client.go lines 263-278). -/
def Server.Replay (c : Server) : Server × Option Err :=
  if c.isPiped then (c, some .alreadyPipe)
  else
    ({ c with
        rawOutput := [],
        inputCnt := 0,
        err := if c.err = some .closed then none else c.err }, none)

/-- `Server.Close` (src/client.go lines 437-445). -/
def Server.Close (c : Server) : Server × Option Err :=
  if c.isPiped then ({ c with conn := c.conn.close }, none)
  else ({ c with err := some .closed }, none)

/-- The `Client` wrapper state (src/client.go, `type Client struct`). -/
structure Client where
  conn : Conn
  isPiped : Bool
  err : Option Err
  MaxBuffer : Nat
  rawInput : List Nat
  inputCnt : Nat
  rawOutput : List Nat
  outputCnt : Nat
  deriving DecidableEq, Repr

/-- `NewClient` (src/client.go). -/
def NewClient (conn : Conn) : Client :=
  { conn := conn, isPiped := false, err := none, MaxBuffer := 1024,
    rawInput := [], inputCnt := 0, rawOutput := [], outputCnt := 0 }

/-- `Client.write` (src/client.go lines 133-156): buffer, then forward
immediately, tracking `outputCnt`.  The dead `if err != nil` guard is as
in `Server.read`. -/
def Client.write (c : Client) (b : List Nat) : Nat × Option Err × Client :=
  if c.rawOutput.length + b.length > c.MaxBuffer then
    (0, some .maxBuffer, { c with err := some .maxBuffer, conn := c.conn.close })
  else
    let r := c.conn.write b
    (r.1, none,
      { c with
        rawOutput := c.rawOutput ++ b,
        conn := r.2,
        outputCnt := c.outputCnt + r.1 })

/-- `Client.Write` (src/client.go lines 123-131). -/
def Client.Write (c : Client) (b : List Nat) : Nat × Option Err × Client :=
  if c.isPiped then
    let r := c.conn.write b
    (r.1, none, { c with conn := r.2 })
  else c.write b

/-- `Client.Read` (src/client.go lines 115-118): pure passthrough. -/
def Client.Read (c : Client) (k : Nat) : List Nat × Option Err × Client :=
  let r := c.conn.read k
  (r.1, r.2.2, { c with conn := r.2.1 })

/-- `Client.Pipe` (src/client.go lines 73-95).  When some buffered
output was never sent it flushes `rawOutput[outputCnt-1:]`.  For
`outputCnt = 0` that Go slice expression has index `-1` and panics at
run time; the panic is modelled as `none`. -/
def Client.Pipe (c : Client) : Option (Client × Option Err) :=
  let c1 := if c.inputCnt > 0 then { c with rawInput := c.rawInput.drop c.inputCnt } else c
  if c1.rawOutput ≠ [] ∧ c1.outputCnt < c1.rawOutput.length then
    if c1.outputCnt = 0 then none
    else
      let r := c1.conn.write (c1.rawOutput.drop (c1.outputCnt - 1))
      some ({ c1 with
              conn := r.2,
              err := none,
              inputCnt := 0,
              outputCnt := 0,
              isPiped := true }, none)
  else
    some ({ c1 with inputCnt := 0, outputCnt := 0, isPiped := true }, none)

/-- `Client.Replay` (src/client.go lines 55-70). -/
def Client.Replay (c : Client) : Client × Option Err :=
  if c.isPiped then (c, some .alreadyPipe)
  else
    ({ c with
        rawInput := [],
        inputCnt := 0,
        outputCnt := 0,
        err := if c.err = some .closed then none else c.err }, none)

/-- `Client.Close` (src/client.go lines 160-168). -/
def Client.Close (c : Client) : Client × Option Err :=
  if c.isPiped then ({ c with conn := c.conn.close }, none)
  else ({ c with err := some .closed }, none)

/-- State of `forwardMultiReadSeeker` (src/unnamed/part_001).  The
sources handed to it by this package are plain byte streams
(`bytes.Buffer`, the raw connection), modelled as byte lists: a source
read delivers `min requested remaining` bytes and reports `io.EOF` on a
call when it is already empty, like `bytes.Buffer`/`strings.Reader`.
The nested-instance flattening optimization can therefore never fire
and contributes no branch.  `bufSize` is the length of the scratch
buffer used by `Seek` (2048 from the constructor). -/
structure MR where
  readers : List (List Nat)
  pos : Int
  bufSize : Nat
  deriving DecidableEq, Repr

/-- The retry loop of `forwardMultiReadSeeker.Read` over the source
list: a source reporting end-of-data is evicted and the read retries
the next source in the same call; end-of-data is returned only once no
sources remain.  Returns the delivered bytes, the error, the remaining
sources and the updated position. -/
def mrReadGo (readers : List (List Nat)) (pos : Int) (k : Nat) :
    List Nat × Option Err × List (List Nat) × Int :=
  match readers with
  | [] => ([], some .eof, [], pos)
  | hd :: tl =>
    if hd = [] then mrReadGo tl pos k
    else
      let bytes := hd.take k
      (bytes, none, hd.drop k :: tl, pos + bytes.length)

/-- `forwardMultiReadSeeker.Read` (src/unnamed/part_001 lines 88-114). -/
def mrRead (mr : MR) (k : Nat) : List Nat × Option Err × MR :=
  let r := mrReadGo mr.readers mr.pos k
  (r.1, r.2.1, { mr with readers := r.2.2.1, pos := r.2.2.2 })

/-- The discard loop of `forwardMultiReadSeeker.Seek`: read toward the
target in scratch-buffer-sized chunks, stopping at the first error or
short read (src/unnamed/part_001 lines 137-149).  `fuel` is seeded with
the full remaining distance `tr`; since every completed iteration
discards `min bufSize tr ≥ 1` bytes whenever `bufSize ≥ 1` (every
instance the package builds has `bufSize = 2048`), the fuel never runs
out before `tr = 0`, so it only makes the recursion structural.  (In Go
a zero-length scratch buffer would spin forever; here it exhausts the
fuel.) -/
def mrSeekLoop (mr : MR) (tr fuel : Nat) : MR × Option Err :=
  match fuel with
  | 0 => (mr, none)
  | fuel + 1 =>
    if tr = 0 then (mr, none)
    else
      let bl := min mr.bufSize tr
      let r := mrRead mr bl
      if r.2.1.isSome ∨ r.1.length ≠ bl then (r.2.2, r.2.1)
      else mrSeekLoop r.2.2 (tr - bl) fuel

/-- `forwardMultiReadSeeker.Seek` (src/unnamed/part_001 lines 116-152).
`whence` is the Go `io.SeekStart/SeekCurrent/SeekEnd` integer. -/
def mrSeek (mr : MR) (offset : Int) (whence : Nat) : Int × MR × Option Err :=
  if whence = 0 ∨ whence = 1 then
    let abs : Int := if whence = 0 then offset else mr.pos + offset
    if abs < 0 then (0, mr, some .seekNegative)
    else if abs < mr.pos then (0, mr, some .seekBackward)
    else
      let r := mrSeekLoop mr (abs - mr.pos).toNat (abs - mr.pos).toNat
      (r.1.pos, r.1, r.2)
  else if whence = 2 then (0, mr, some .seekEnd)
  else (0, mr, some .seekWhence)

/-- `ForwardMultiReadSeeker` constructor (src/unnamed/part_001
lines 158-166). -/
def ForwardMultiReadSeeker (readers : List (List Nat)) : MR :=
  { readers := readers, pos := 0, bufSize := 2048 }

/-- The replay `Reader` state (src/unnamed/part_002).  `r` is what
remains of the wrapped forward-only source, `buf` the `bytes.Buffer`
capture sink, `teePos` the position counter of the `teeReadSeeker`
built by `NewReader` over the same `r` and `buf` (src/tee_reader.go),
`pos` and `pipe` the reader's own fields, and `r_mr` the forward
multi-reader installed by `Pipe` (inert before that; Go keeps `nil`).
The multi-reader snapshots `buf`'s unread contents and the remaining
source at `Pipe` time, which is faithful because after `Pipe` the
reader consults only `r_mr`. -/
structure Reader where
  r : List Nat
  buf : List Nat
  teePos : Int
  pos : Int
  pipe : Bool
  r_mr : MR
  deriving DecidableEq, Repr

/-- `NewReader` (src/unnamed/part_002 lines 20-28). -/
def NewReader (s : List Nat) : Reader :=
  { r := s, buf := [], teePos := 0, pos := 0, pipe := false,
    r_mr := { readers := [], pos := 0, bufSize := 2048 } }

/-- `teeReadSeeker.Seek` (src/tee_reader.go lines 36-59), acting on the
reader's shared `r`/`buf`: forward-only; the discard copy pulls bytes
from the source and — via `teeReadSeeker.Read` — mirrors every one of
them into the capture buffer; reports `io.EOF` when the source ran out
before the target. -/
def Reader.teeSeek (c : Reader) (offset : Int) (whence : Nat) : Int × Reader × Option Err :=
  if whence = 0 ∨ whence = 1 then
    let abs : Int := if whence = 0 then offset else c.teePos + offset
    if abs < 0 then (0, c, some .seekNegative)
    else if abs < c.teePos then (0, c, some .seekBackward)
    else
      let want := (abs - c.teePos).toNat
      let np := min want c.r.length
      let c2 : Reader :=
        { c with
          buf := c.buf ++ c.r.take np,
          r := c.r.drop np,
          teePos := c.teePos + np }
      (c2.teePos, c2, if np < want then some .eof else none)
  else if whence = 2 then (0, c, some .seekEnd)
  else (0, c, some .seekWhence)

/-- `Reader.seek`, the pre-pipe seek (src/unnamed/part_002 lines 71-94):
backward motion stays inside the capture buffer; a target beyond it is
reached by seeking the tee forward, which fills the buffer. -/
def Reader.seek (c : Reader) (offset : Int) (whence : Nat) : Int × Reader × Option Err :=
  if whence = 0 ∨ whence = 1 then
    let abs : Int := if whence = 0 then offset else c.pos + offset
    if abs < 0 then (0, c, some .seekNegative)
    else if abs > (c.buf.length : Int) then
      let r := c.teeSeek abs 0
      (r.1, { r.2.1 with pos := r.1 }, r.2.2)
    else
      (abs, { c with pos := abs }, none)
  else if whence = 2 then (0, c, some .seekEnd)
  else (0, c, some .seekWhence)

/-- `Reader.Seek` (src/unnamed/part_002 lines 63-68). -/
def Reader.Seek (c : Reader) (offset : Int) (whence : Nat) : Int × Reader × Option Err :=
  if c.pipe then
    let r := mrSeek c.r_mr offset whence
    (r.1, { c with r_mr := r.2.1 }, r.2.2)
  else c.seek offset whence

/-- `Reader.ReadAt` (src/unnamed/part_002 lines 112-146).  Before pipe:
fill the capture buffer up to `off + k` and copy out of it (a negative
`off` that survives the `n <= off` test would make the Go slice
expression panic; no caller produces one, and the model clamps).  After
pipe: offsets below the position frozen at pipe time are rejected
outright, anything else goes through the forward-only multi-reader's
seek, which rejects offsets below its current position. -/
def Reader.ReadAt (c : Reader) (k : Nat) (off : Int) : List Nat × Option Err × Reader :=
  if c.pipe then
    if off < c.pos then ([], some .pipedBackward, c)
    else
      let s := mrSeek c.r_mr off 0
      let c2 := { c with r_mr := s.2.1 }
      if s.1 ≠ off ∨ s.2.2.isSome then ([], s.2.2, c2)
      else
        let r := mrRead c2.r_mr k
        (r.1, r.2.1, { c2 with r_mr := r.2.2 })
  else
    let s := c.seek (off + k) 0
    if s.1 ≤ off then ([], s.2.2, s.2.1)
    else
      ((s.2.1.buf.drop off.toNat).take k, s.2.2, s.2.1)

/-- `Reader.Read` (src/unnamed/part_002 lines 96-105). -/
def Reader.Read (c : Reader) (k : Nat) : List Nat × Option Err × Reader :=
  if c.pipe then
    let r := mrRead c.r_mr k
    (r.1, r.2.1, { c with r_mr := r.2.2 })
  else c.ReadAt k c.pos

/-- `Reader.Pipe` (src/unnamed/part_002 lines 52-61): idempotent; build
the forward multi-reader over the captured bytes followed by the live
source and seed its position to `pos` (consuming that many captured
bytes). -/
def Reader.Pipe (c : Reader) : Reader :=
  if c.pipe then c
  else
    let r0 := ForwardMultiReadSeeker [c.buf, c.r]
    let s := mrSeek r0 c.pos 0
    { c with pipe := true, r_mr := s.2.1 }

/-! ## Operation sequences on a `Server` wrapper -/

/-- A caller-visible operation on a `Server` wrapper. -/
inductive SOp where
  | rd (k : Nat)
  | wr (b : List Nat)
  | replay
  | pipe
  | close
  deriving Repr

/-- Execute one operation, keeping the resulting wrapper state. -/
def srvStep (st : Server) : SOp → Server
  | .rd k => (st.Read k).st
  | .wr b => (st.Write b).2.2
  | .replay => (st.Replay).1
  | .pipe => (st.Pipe).1
  | .close => (st.Close).1

/-- Execute a sequence of operations. -/
def runSrv (st : Server) (ops : List SOp) : Server :=
  ops.foldl srvStep st

/-- The buffer-bound invariant of the spec, strengthened with "piped
implies the input cursor is zero", which makes it inductive. -/
def SrvInv (st : Server) : Prop :=
  st.inputCnt ≤ st.rawInput.length ∧
  st.rawInput.length ≤ st.MaxBuffer ∧
  st.rawOutput.length ≤ st.MaxBuffer ∧
  (st.isPiped = true → st.inputCnt = 0)

/-- Run a sequence of bounded `Read` calls, concatenating the delivered
bytes. -/
def runReads (st : Server) (ks : List Nat) : List Nat × Server :=
  match ks with
  | [] => ([], st)
  | k :: rest =>
    let r := st.Read k
    let q := runReads r.st rest
    (r.bytes ++ q.1, q.2)

/-- Detection rounds: each round calls `Replay()` and then performs its
chunked reads; the delivered bytes of each round are collected. -/
def runRounds (st : Server) (kss : List (List Nat)) : List (List Nat) × Server :=
  match kss with
  | [] => ([], st)
  | ks :: rest =>
    let st1 := (st.Replay).1
    let q := runReads st1 ks
    let q2 := runRounds q.2 rest
    (q.1 :: q2.1, q2.2)

/-- A detecting-phase server whose input buffer holds the first `L`
bytes of the arriving byte sequence `s` and whose connection still
holds the rest. -/
def GoodSrv (s : List Nat) (st : Server) : Prop :=
  st.isPiped = false ∧
  st.rawOutput = [] ∧
  ∃ L, L ≤ s.length ∧ st.rawInput = s.take L ∧ st.conn.toRead = s.drop L ∧
    st.inputCnt ≤ L ∧ L ≤ st.MaxBuffer

/-- Run a sequence of `Write` calls, keeping the resulting state. -/
def runWrites (st : Server) (bs : List (List Nat)) : Server :=
  match bs with
  | [] => st
  | b :: rest => runWrites (st.Write b).2.2 rest

/-! ## Concrete fixture states -/

/-- A server wrapper closed during detection: the sticky fault
`errClosed` is recorded, the stream (holding one byte `65`) is open. -/
def closedSrv : Server :=
  (Server.Close (NewServer ⟨[65], [], false⟩)).1

/-- A client wrapper closed during detection. -/
def closedCli : Client :=
  (Client.Close (NewClient ⟨[], [], false⟩)).1

/-- A server in the "has written" state: one buffered output byte. -/
def c5srv : Server :=
  ((NewServer ⟨[1, 2, 3], [], false⟩).Write [9]).2.2

/-- A client that wrote one probe byte, replayed (which resets
`outputCnt` but keeps `rawOutput`), and wrote one more byte: now
`rawOutput = [10, 20]` with `outputCnt = 1 < 2`. -/
def partCli : Client :=
  ((((NewClient ⟨[], [], false⟩).Write [10]).2.2.Replay).1.Write [20]).2.2

/-- A server that buffered two output bytes during detection. -/
def c10srv : Server :=
  ((NewServer ⟨[], [], false⟩).Write [1, 2]).2.2

/-- The §8 multi-reader instance over the sources `["abc", "", "def"]`. -/
def c8mr : MR :=
  ForwardMultiReadSeeker [[97, 98, 99], [], [100, 101, 102]]

def c8s1 : List Nat × Option Err × MR := mrRead c8mr 2
def c8s2 : List Nat × Option Err × MR := mrRead c8s1.2.2 2
def c8s3 : List Nat × Option Err × MR := mrRead c8s2.2.2 2
def c8s4 : List Nat × Option Err × MR := mrRead c8s3.2.2 2
def c8s5 : List Nat × Option Err × MR := mrRead c8s4.2.2 2

/-- A committed replay reader: three bytes were read, then `Pipe()`;
its forward view sits at position 3. -/
def c7rd : Reader :=
  Reader.Pipe (Reader.Read (NewReader [5, 6, 7, 8, 9]) 3).2.2

/-! ## Theorems -/

theorem Conn.read_fst_length (c : Conn) (k : Nat) : ((c.read k).1).length ≤ k := by
  unfold Conn.read
  split_ifs <;> simp [List.length_take]

theorem Server.read_inv (st : Server) (k : Nat) (h : SrvInv st) : SrvInv (st.read k).st := by
  obtain ⟨h1, h2, h3, h4⟩ := h
  have hlen := Conn.read_fst_length st.conn (st.inputCnt + k - st.rawInput.length)
  simp only [Server.read]
  split_ifs <;>
    refine ⟨?_, ?_, ?_, ?_⟩ <;>
      simp_all [SrvInv, List.length_take, List.length_drop, List.length_append] <;> omega

theorem srvStep_inv (st : Server) (op : SOp) (h : SrvInv st) : SrvInv (srvStep st op) := by
  cases op with
  | rd k =>
    simp only [srvStep, Server.Read]
    split_ifs with hp
    · exact ⟨h.1, h.2.1, h.2.2.1, fun _ => h.2.2.2 hp.1⟩
    · exact Server.read_inv st k h
  | wr b =>
    obtain ⟨h1, h2, h3, h4⟩ := h
    simp only [srvStep, Server.Write, Server.write]
    split_ifs <;>
      refine ⟨?_, ?_, ?_, ?_⟩ <;>
        simp_all [List.length_append] <;> omega
  | replay =>
    obtain ⟨h1, h2, h3, h4⟩ := h
    simp only [srvStep, Server.Replay]
    split_ifs <;> refine ⟨?_, ?_, ?_, ?_⟩ <;> simp_all
  | pipe =>
    obtain ⟨h1, h2, h3, h4⟩ := h
    simp only [srvStep, Server.Pipe]
    split_ifs <;>
      refine ⟨?_, ?_, ?_, ?_⟩ <;>
        simp_all [List.length_drop] <;> omega
  | close =>
    obtain ⟨h1, h2, h3, h4⟩ := h
    simp only [srvStep, Server.Close]
    split_ifs <;> exact ⟨h1, h2, h3, h4⟩

theorem runSrv_inv (st : Server) (ops : List SOp) (h : SrvInv st) :
    SrvInv (runSrv st ops) := by
  induction ops generalizing st with
  | nil => exact h
  | cons op rest ih => exact ih _ (srvStep_inv st op h)

/-- C9: for every Server wrapper and every sequence of Read, Write,
Replay, Pipe and Close operations (the wrapper's `MaxBuffer` is left at
its configured value `mb` throughout), the invariant
`inputCnt ≤ len rawInput ≤ MaxBuffer` and `len rawOutput ≤ MaxBuffer`
holds after each operation — here stated for the state reached after an
arbitrary operation sequence from a fresh wrapper, which covers every
intermediate state because every prefix is itself such a sequence. -/
theorem C9_buffer_bounds (c : Conn) (mb : Nat) (ops : List SOp) :
    (runSrv { NewServer c with MaxBuffer := mb } ops).inputCnt ≤
        (runSrv { NewServer c with MaxBuffer := mb } ops).rawInput.length ∧
    (runSrv { NewServer c with MaxBuffer := mb } ops).rawInput.length ≤
        (runSrv { NewServer c with MaxBuffer := mb } ops).MaxBuffer ∧
    (runSrv { NewServer c with MaxBuffer := mb } ops).rawOutput.length ≤
        (runSrv { NewServer c with MaxBuffer := mb } ops).MaxBuffer := by
  have h := runSrv_inv { NewServer c with MaxBuffer := mb } ops
    ⟨by simp [NewServer], by simp [NewServer], by simp [NewServer], by simp [NewServer]⟩
  exact ⟨h.1, h.2.1, h.2.2.1⟩

/-- C1 (code bug): the source's "error state" guards test the local
named return `err`, which is always nil there, instead of the stored
`c.err`, so a wrapper whose sticky fault is set (`errClosed`, recorded
by `Close()` during detection) still serves buffered reads and writes
normally instead of failing with the stored fault: the server read
delivers the byte `65` pulled from the underlying stream with a nil
error, the server write buffers, and the client write forwards byte `7`
to the stream. -/
theorem C1_sticky_fault_not_checked :
    closedSrv.err = some .closed ∧ closedSrv.isPiped = false ∧
    (closedSrv.Read 1).bytes = [65] ∧
    (closedSrv.Read 1).err = none ∧
    (closedSrv.Read 1).st.conn.toRead = [] ∧
    (closedSrv.Write [9]).2.1 = none ∧
    (closedSrv.Write [9]).2.2.rawOutput = [9] ∧
    closedCli.err = some .closed ∧
    (closedCli.Write [7]).2.1 = none ∧
    (closedCli.Write [7]).2.2.conn.written = [7] := by
  decide

/-- C2 (code bug): for a client whose buffered output was not fully
sent (`rawOutput = [10, 20]`, `outputCnt = 1`), the unsent suffix is
`[20]`, but `Pipe()` flushes `rawOutput[outputCnt-1:] = [10, 20]`,
re-sending the already-sent byte `10`: the stream transcript grows by
`[10, 20]` instead of exactly `[20]`. -/
theorem C2_pipe_flush_off_by_one :
    partCli.rawOutput = [10, 20] ∧ partCli.outputCnt = 1 ∧
    partCli.rawOutput.drop partCli.outputCnt = [20] ∧
    partCli.conn.written = [10, 20] ∧
    (Client.Pipe partCli).map (fun r => r.1.conn.written) =
      some ([10, 20] ++ [10, 20]) := by
  decide

/-- C5 counterexample: a detecting server with one buffered output byte
refuses the buffered read with `errHasWriten` and records the sticky
fault, but the underlying transport is NOT forcibly closed, contrary to
the claim. -/
theorem C5_counterexample :
    (c5srv.Read 1).err = some .hasWriten ∧
    (c5srv.Read 1).st.err = some .hasWriten ∧
    (c5srv.Read 1).st.conn.closed = false := by
  decide

/-- C5 (amended): whenever a Server wrapper in detecting mode has a
non-empty output buffer, a buffered Read fails with the `errHasWriten`
error and records it as the sticky fault; the underlying transport is
left untouched (in particular it is not closed). -/
theorem C5_read_after_write (st : Server) (k : Nat)
    (hp : st.isPiped = false) (ho : st.rawOutput ≠ []) :
    st.Read k = ⟨[], some .hasWriten, { st with err := some .hasWriten }⟩ := by
  simp only [Server.Read, hp]
  simp only [Bool.false_eq_true, false_and, if_false]
  simp [Server.read, hp, ho]

theorem C5_read_after_write_witness :
    c5srv.Read 1 = ⟨[], some .hasWriten, { c5srv with err := some .hasWriten }⟩ :=
  C5_read_after_write c5srv 1 (by decide) (by decide)

/-- C10: `Server.Pipe` does not clear the output buffer after flushing
it, so with a non-empty output buffer a second `Pipe()` writes the same
buffered bytes to the underlying stream a second time, and
`Pipe(); Pipe()` differs from a single `Pipe()` in its effect on the
stream. -/
theorem Server.Pipe_written (st : Server) :
    (st.Pipe).1.conn.written = st.conn.written ++ st.rawOutput := by
  unfold Server.Pipe
  by_cases hin : 0 < st.inputCnt <;> by_cases ho : st.rawOutput = [] <;>
    simp [hin, ho, Conn.write]

theorem Server.Pipe_rawOutput (st : Server) :
    (st.Pipe).1.rawOutput = st.rawOutput := by
  unfold Server.Pipe
  by_cases hin : 0 < st.inputCnt <;> by_cases ho : st.rawOutput = [] <;>
    simp [hin, ho, Conn.write]

theorem C10_double_pipe_resends (st : Server) (h : st.rawOutput ≠ []) :
    (st.Pipe).1.conn.written = st.conn.written ++ st.rawOutput ∧
    ((st.Pipe).1.Pipe).1.conn.written =
      st.conn.written ++ st.rawOutput ++ st.rawOutput ∧
    ((st.Pipe).1.Pipe).1.conn.written ≠ (st.Pipe).1.conn.written := by
  have h2 : ((st.Pipe).1.Pipe).1.conn.written =
      st.conn.written ++ st.rawOutput ++ st.rawOutput := by
    rw [Server.Pipe_written, Server.Pipe_written, Server.Pipe_rawOutput]
  refine ⟨Server.Pipe_written st, h2, ?_⟩
  rw [h2, Server.Pipe_written]
  intro heq
  have := congrArg List.length heq
  simp only [List.length_append] at this
  have : st.rawOutput.length = 0 := by omega
  simp_all
theorem C10_double_pipe_resends_witness :
    ((c10srv.Pipe).1.Pipe).1.conn.written = [1, 2] ++ [1, 2] ∧
    (c10srv.Pipe).1.conn.written = [1, 2] := by
  have h := C10_double_pipe_resends c10srv (by decide)
  refine ⟨?_, ?_⟩
  · rw [h.2.1]; decide
  · rw [h.1]; decide

/-- C6: a detecting-mode Read or Write whose buffered input or output
would exceed `MaxBuffer` fails that call with the `errMaxBuffer` error,
records it as the sticky fault, and closes the underlying stream — for
the server buffered read, the server buffered write, and the client
buffered write. -/
theorem C6_max_buffer_enforced
    (s1 s2 : Server) (cl : Client) (k : Nat) (b bc : List Nat)
    (h1p : s1.isPiped = false) (h1o : s1.rawOutput = [])
    (h1len : s1.rawInput.length ≤ s1.MaxBuffer)
    (h1x : s1.MaxBuffer < s1.inputCnt + k)
    (h2p : s2.isPiped = false)
    (h2x : s2.MaxBuffer < s2.rawOutput.length + b.length)
    (hcp : cl.isPiped = false)
    (hcx : cl.MaxBuffer < cl.rawOutput.length + bc.length) :
    s1.Read k =
      ⟨[], some .maxBuffer, { s1 with err := some .maxBuffer, conn := s1.conn.close }⟩ ∧
    s2.Write b =
      (0, some .maxBuffer, { s2 with err := some .maxBuffer, conn := s2.conn.close }) ∧
    cl.Write bc =
      (0, some .maxBuffer, { cl with err := some .maxBuffer, conn := cl.conn.close }) := by
  refine ⟨?_, ?_, ?_⟩
  · have hbr : s1.rawInput.length < s1.inputCnt + k := by omega
    simp only [Server.Read, h1p]
    simp only [Bool.false_eq_true, false_and, if_false]
    simp [Server.read, h1p, h1o, hbr, h1x]
  · simp [Server.Write, Server.write, h2p, h2x]
  · simp [Client.Write, Client.write, hcp, hcx]

theorem C6_max_buffer_enforced_witness :
    (({ NewServer ⟨[1], [], false⟩ with MaxBuffer := 1 } : Server).Read 2).err =
      some .maxBuffer ∧
    (({ NewServer ⟨[], [], false⟩ with MaxBuffer := 1 } : Server).Write [0, 0]).2.1 =
      some .maxBuffer ∧
    (({ NewClient ⟨[], [], false⟩ with MaxBuffer := 1 } : Client).Write [0, 0]).2.1 =
      some .maxBuffer := by
  have h := C6_max_buffer_enforced
    { NewServer ⟨[1], [], false⟩ with MaxBuffer := 1 }
    { NewServer ⟨[], [], false⟩ with MaxBuffer := 1 }
    { NewClient ⟨[], [], false⟩ with MaxBuffer := 1 }
    2 [0, 0] [0, 0]
    (by decide) (by decide) (by decide) (by decide)
    (by decide) (by decide) (by decide) (by decide)
  refine ⟨?_, ?_, ?_⟩
  · rw [h.1]
  · rw [h.2.1]
  · rw [h.2.2]

theorem Server.Read_good (s : List Nat) (st : Server) (k : Nat)
    (h : GoodSrv s st) (hmb : st.inputCnt + k ≤ st.MaxBuffer)
    (hs : st.inputCnt + k ≤ s.length) :
    (st.Read k).bytes = (s.drop st.inputCnt).take k ∧
    (st.Read k).err = none ∧
    GoodSrv s (st.Read k).st ∧
    (st.Read k).st.inputCnt = st.inputCnt + k ∧
    (st.Read k).st.MaxBuffer = st.MaxBuffer := by
  obtain ⟨hp, ho, L, hLs, hin, hconn, hc, hm⟩ := h
  have hRead : st.Read k = st.read k := by
    simp [Server.Read, hp]
  have hlenL : st.rawInput.length = L := by
    rw [hin, List.length_take]; omega
  rw [hRead]
  unfold Server.read
  rw [if_neg (by simp [hp]), if_neg (by simp [ho])]
  rw [hlenL, hin]
  by_cases htop : st.inputCnt + k > L
  · -- top-up branch: pull inputCnt + k - L fresh bytes from the stream
    rw [if_pos htop, if_neg (by omega)]
    have hreq : st.inputCnt + k - L ≠ 0 := by omega
    have hne : s.drop L ≠ [] := by
      intro hnil
      have := congrArg List.length hnil
      simp only [List.length_drop, List.length_nil] at this
      omega
    have hcr : st.conn.read (st.inputCnt + k - L) =
        ((s.drop L).take (st.inputCnt + k - L),
          { st.conn with toRead := (s.drop L).drop (st.inputCnt + k - L) },
          none) := by
      unfold Conn.read
      rw [hconn, if_neg hreq, if_neg hne]
    rw [hcr]
    simp only [Option.isSome_none, Bool.false_eq_true, if_false]
    have hjoin : s.take L ++ (s.drop L).take (st.inputCnt + k - L) = s.take (st.inputCnt + k) := by
      have hsplit : st.inputCnt + k = L + (st.inputCnt + k - L) := by omega
      conv_rhs => rw [hsplit, List.take_add]
    have hdd : (s.drop L).drop (st.inputCnt + k - L) = s.drop (st.inputCnt + k) := by
      rw [List.drop_drop]
      congr 1
      omega
    have hbytes : ((s.take (st.inputCnt + k)).drop st.inputCnt).take k =
        (s.drop st.inputCnt).take k := by
      rw [List.drop_take]
      rw [List.take_take]
      congr 1
      omega
    have hblen : (((s.take (st.inputCnt + k)).drop st.inputCnt).take k).length = k := by
      rw [hbytes]
      simp only [List.length_take, List.length_drop]
      omega
    refine ⟨?_, ?_, ?_, ?_, ?_⟩
    · dsimp only
      rw [hjoin, hbytes]
    · trivial
    · refine ⟨hp, ho, st.inputCnt + k, hs, ?_, ?_, ?_, hmb⟩ <;> dsimp only
      · rw [hjoin]
      · rw [hdd]
      · rw [hjoin, hblen]
    · dsimp only
      rw [hjoin, hblen]
    · trivial
  · -- enough is buffered already
    rw [if_neg htop]
    have hbytes : (((s.take L).drop st.inputCnt).take k) = (s.drop st.inputCnt).take k := by
      rw [List.drop_take, List.take_take]
      congr 1
      omega
    have hblen : ((((s.take L)).drop st.inputCnt).take k).length = k := by
      rw [hbytes]
      simp only [List.length_take, List.length_drop]
      omega
    refine ⟨?_, ?_, ?_, ?_, ?_⟩
    · exact hbytes
    · rfl
    · refine ⟨hp, ho, L, hLs, rfl, hconn, ?_, hm⟩
      dsimp only
      rw [hblen]
      omega
    · dsimp only
      rw [hblen]
    · rfl

theorem Server.Replay_good (s : List Nat) (st : Server) (h : GoodSrv s st) :
    GoodSrv s (st.Replay).1 ∧ (st.Replay).1.inputCnt = 0 ∧
    (st.Replay).1.MaxBuffer = st.MaxBuffer := by
  obtain ⟨hp, ho, L, hLs, hin, hconn, hc, hm⟩ := h
  simp only [Server.Replay, hp]
  refine ⟨⟨by simpa using hp, by simp, L, hLs, by simpa using hin, by simpa using hconn,
    by simp, by simpa using hm⟩, by simp, by simp⟩

theorem runReads_good (s : List Nat) (ks : List Nat) (st : Server)
    (h : GoodSrv s st) (hmb : st.inputCnt + ks.sum ≤ st.MaxBuffer)
    (hs : st.inputCnt + ks.sum ≤ s.length) :
    (runReads st ks).1 = (s.drop st.inputCnt).take ks.sum ∧
    GoodSrv s (runReads st ks).2 ∧
    (runReads st ks).2.inputCnt = st.inputCnt + ks.sum ∧
    (runReads st ks).2.MaxBuffer = st.MaxBuffer := by
  induction ks generalizing st with
  | nil =>
    refine ⟨by simp [runReads], h, by simp [runReads], by simp [runReads]⟩
  | cons k rest ih =>
    have hsum : (k :: rest).sum = k + rest.sum := List.sum_cons ..
    obtain ⟨hb, he, hg, hcnt, hM⟩ :=
      Server.Read_good s st k h (by rw [hsum] at hmb; omega) (by rw [hsum] at hs; omega)
    obtain ⟨ihb, ihg, ihcnt, ihM⟩ := ih (st.Read k).st hg
      (by rw [hcnt, hM]; rw [hsum] at hmb; omega)
      (by rw [hcnt]; rw [hsum] at hs; omega)
    have hglue : (s.drop st.inputCnt).take k ++ (s.drop (st.inputCnt + k)).take rest.sum =
        (s.drop st.inputCnt).take (k + rest.sum) := by
      rw [List.take_add]
      congr 2
      rw [List.drop_drop]
    refine ⟨?_, ?_, ?_, ?_⟩
    · show (st.Read k).bytes ++ (runReads (st.Read k).st rest).1 = _
      calc (st.Read k).bytes ++ (runReads (st.Read k).st rest).1
          = (s.drop st.inputCnt).take k ++ (s.drop (st.inputCnt + k)).take rest.sum := by
            rw [hb, ihb, hcnt]
        _ = (s.drop st.inputCnt).take (k + rest.sum) := hglue
        _ = (s.drop st.inputCnt).take (k :: rest).sum := by rw [hsum]
    · exact ihg
    · show (runReads (st.Read k).st rest).2.inputCnt = _
      rw [ihcnt, hcnt, hsum]
      omega
    · show (runReads (st.Read k).st rest).2.MaxBuffer = _
      rw [ihM, hM]

/-- C4: for every byte sequence `s` arriving from the underlying stream
and every sequence of detection rounds — each round a `Replay()`
followed by bounded `Read` calls chunked arbitrarily, with no
intervening `Write` and each round's total within `MaxBuffer` and
within the arrived data — every round delivers exactly the prefix of
`s` of its total length, so the reads after each `Replay()` reproduce
the identical prefix bytes in the identical order regardless of
chunking. -/
theorem C4_replay_reproduces_same_bytes (s : List Nat) (mb : Nat) (kss : List (List Nat))
    (hk : ∀ ks ∈ kss, ks.sum ≤ mb ∧ ks.sum ≤ s.length) :
    (runRounds { NewServer ⟨s, [], false⟩ with MaxBuffer := mb } kss).1 =
      kss.map (fun ks => s.take ks.sum) := by
  have hinit : GoodSrv s { NewServer ⟨s, [], false⟩ with MaxBuffer := mb } := by
    refine ⟨rfl, rfl, 0, by simp, by simp [NewServer], by simp [NewServer],
      by simp [NewServer], by simp [NewServer]⟩
  have hMB : ({ NewServer ⟨s, [], false⟩ with MaxBuffer := mb } : Server).MaxBuffer = mb := rfl
  revert hinit hMB
  generalize { NewServer ⟨s, [], false⟩ with MaxBuffer := mb } = st
  intro hinit hMB
  induction kss generalizing st with
  | nil => simp [runRounds]
  | cons ks rest ih =>
    obtain ⟨hg1, hcnt1, hM1⟩ := Server.Replay_good s st hinit
    obtain ⟨hb, hg2, hcnt2, hM2⟩ := runReads_good s ks (st.Replay).1 hg1
      (by rw [hcnt1, hM1, hMB]; have := (hk ks (by simp)).1; omega)
      (by rw [hcnt1]; simpa using (hk ks (by simp)).2)
    refine ?_
    show ((runReads (st.Replay).1 ks).1 :: (runRounds (runReads (st.Replay).1 ks).2 rest).1) = _
    rw [List.map_cons]
    congr 1
    · rw [hb, hcnt1]
      simp
    · exact ih (fun l hl => hk l (by simp [hl])) _ hg2 (by rw [hM2, hM1, hMB])

theorem C4_replay_reproduces_witness :
    (runRounds { NewServer ⟨[1, 2, 3, 4], [], false⟩ with MaxBuffer := 4 }
        [[2, 1], [3], [1, 1, 1]]).1 = [[1, 2, 3], [1, 2, 3], [1, 2, 3]] := by
  have h := C4_replay_reproduces_same_bytes [1, 2, 3, 4] 4 [[2, 1], [3], [1, 1, 1]]
    (by decide)
  rw [h]
  decide

theorem runWrites_spec (st : Server) (bs : List (List Nat))
    (hp : st.isPiped = false)
    (hb : st.rawOutput.length + bs.flatten.length ≤ st.MaxBuffer) :
    runWrites st bs = { st with rawOutput := st.rawOutput ++ bs.flatten } := by
  induction bs generalizing st with
  | nil => simp [runWrites]
  | cons b rest ih =>
    have hW : st.Write b = (b.length, none, { st with rawOutput := st.rawOutput ++ b }) := by
      simp only [Server.Write, hp, Bool.false_eq_true, if_false]
      unfold Server.write
      rw [if_neg (by simp only [List.flatten_cons, List.length_append] at hb; omega), hp]
    show runWrites (st.Write b).2.2 rest = _
    rw [hW]
    rw [ih { st with rawOutput := st.rawOutput ++ b } (by simpa using hp)
      (by simp only [List.flatten_cons, List.length_append] at hb ⊢; omega)]
    simp [List.flatten_cons, List.append_assoc]

theorem C3_server_writes_then_pipe (st : Server) (bs : List (List Nat))
    (hp : st.isPiped = false) (ho : st.rawOutput = [])
    (hb : bs.flatten.length ≤ st.MaxBuffer) :
    (runWrites st bs).conn.written = st.conn.written ∧
    ((runWrites st bs).Pipe).1.conn.written = st.conn.written ++ bs.flatten := by
  have hrw := runWrites_spec st bs hp (by rw [ho]; simpa using hb)
  refine ⟨by rw [hrw], ?_⟩
  rw [hrw, Server.Pipe_written]
  dsimp only
  rw [ho]
  simp

theorem C3_server_writes_then_pipe_witness :
    (runWrites (NewServer ⟨[], [], false⟩) [[1], [2, 3], []]).conn.written = [] ∧
    ((runWrites (NewServer ⟨[], [], false⟩) [[1], [2, 3], []]).Pipe).1.conn.written =
      [1, 2, 3] := by
  have h := C3_server_writes_then_pipe (NewServer ⟨[], [], false⟩) [[1], [2, 3], []]
    (by decide) (by decide) (by decide)
  exact ⟨h.1.trans (by decide), h.2.trans (by decide)⟩

/-- General helper: the multi-reader reports end-of-data only when no
sources remain. -/
theorem mrReadGo_eof (rs : List (List Nat)) (pos : Int) (k : Nat)
    (h : (mrReadGo rs pos k).2.1 = some .eof) :
    (mrReadGo rs pos k).2.2.1 = [] ∧ (mrReadGo rs pos k).1 = [] := by
  induction rs generalizing pos with
  | nil => simp [mrReadGo]
  | cons hd tl ih =>
    by_cases hhd : hd = []
    · simp only [mrReadGo, if_pos hhd] at h ⊢
      exact ih pos h
    · simp only [mrReadGo, if_neg hhd] at h
      exact absurd h (by simp)

/-- C8 counterexample: on the fresh multi-reader over
`["abc", "", "def"]`, seeking forward by 4 from the start does NOT land
on position 4: the seek loop reads 4 bytes in one chunk, the first
source delivers only 3 (`"abc"`), and the short read stops the loop, so
the seek returns position 3 with no error. -/
theorem C8_counterexample :
    (mrSeek c8mr 4 0).1 = 3 ∧ (mrSeek c8mr 4 0).1 ≠ 4 ∧
    (mrSeek c8mr 4 0).2.2 = none := by
  decide

/-- C8 (amended): the multi-reader over `["abc", "", "def"]` read
through a 2-byte buffer yields `"ab"`, `"c"`, `"de"`, `"f"` and then
end-of-data; end-of-data is reported only when no sources remain (shown
in general); and on a fresh instance, seeking forward by 4 from the
start stops at position 3, the end of the first source, because the
short read halts the seek loop — not at position 4. -/
theorem C8_multi_reader_behaviour :
    (c8s1.1 = [97, 98] ∧ c8s1.2.1 = none ∧
     c8s2.1 = [99] ∧ c8s2.2.1 = none ∧
     c8s3.1 = [100, 101] ∧ c8s3.2.1 = none ∧
     c8s4.1 = [102] ∧ c8s4.2.1 = none ∧
     c8s5.1 = [] ∧ c8s5.2.1 = some .eof ∧ c8s5.2.2.readers = []) ∧
    (∀ (mr : MR) (k : Nat), (mrRead mr k).2.1 = some .eof →
       (mrRead mr k).2.2.readers = [] ∧ (mrRead mr k).1 = []) ∧
    (mrSeek c8mr 4 0).1 = 3 := by
  refine ⟨by decide, ?_, by decide⟩
  intro mr k h
  have hgo := mrReadGo_eof mr.readers mr.pos k (by simpa [mrRead] using h)
  constructor
  · simp [mrRead, hgo.1]
  · simp [mrRead, hgo.2]

theorem C8_multi_reader_witness :
    (mrRead ⟨[], 0, 2048⟩ 1).2.2.readers = [] ∧ (mrRead ⟨[], 0, 2048⟩ 1).1 = [] :=
  C8_multi_reader_behaviour.2.1 ⟨[], 0, 2048⟩ 1 (by decide)

theorem NewReader_read3 (s : List Nat) (hs : 3 ≤ s.length) :
    Reader.Read (NewReader s) 3 = (s.take 3, none,
      { r := s.drop 3, buf := s.take 3, teePos := 3, pos := 3, pipe := false,
        r_mr := { readers := [], pos := 0, bufSize := 2048 } }) := by
  have hmin : min 3 s.length = 3 := Nat.min_eq_left hs
  have hne : s ≠ [] := by intro h; rw [h] at hs; simp at hs
  have hlt : ¬s.length < 3 := Nat.not_lt.mpr hs
  have ht3 : Int.toNat 3 ⊓ s.length = 3 := by omega
  simp only [Reader.Read, NewReader, Reader.ReadAt, Reader.seek, Reader.teeSeek]
  norm_num [hmin, hne, hlt, List.take_take, ht3]

theorem NewReader_seek0_read3 (s : List Nat) (hs : 3 ≤ s.length) :
    (Reader.Seek (Reader.Read (NewReader s) 3).2.2 0 0).2.1.Read 3 =
      (s.take 3, none,
        { r := s.drop 3, buf := s.take 3, teePos := 3, pos := 3, pipe := false,
          r_mr := { readers := [], pos := 0, bufSize := 2048 } }) := by
  have hmin : min 3 s.length = 3 := Nat.min_eq_left hs
  rw [NewReader_read3 s hs]
  have hseek : Reader.Seek
      ({ r := s.drop 3, buf := s.take 3, teePos := 3, pos := 3, pipe := false,
         r_mr := { readers := [], pos := 0, bufSize := 2048 } } : Reader) 0 0 =
      (0, { r := s.drop 3, buf := s.take 3, teePos := 3, pos := 0, pipe := false,
            r_mr := { readers := [], pos := 0, bufSize := 2048 } }, none) := by
    simp only [Reader.Seek, Reader.seek]
    norm_num [hmin]
  rw [hseek]
  simp only [Reader.Read, Reader.ReadAt, Reader.seek, Reader.teeSeek]
  norm_num [hmin, List.take_take]

/-- C7: two facts about the replay `Reader`.  (Buffering) for any
source holding at least 3 bytes, reading 3 bytes, seeking back to
offset 0 and reading 3 bytes again delivers the same first 3 bytes both
times.  (Committed) for any reader after `Pipe()`, a `Seek` or `ReadAt`
to a non-negative offset below the forward view's current position
fails with a cannot-move-backward error (`Seek` with the multi-reader's
backward-seek error; `ReadAt` with either its own piped-backward error
or that same backward-seek error) and delivers no bytes. -/
theorem C7_replay_reader (s : List Nat) (rd : Reader) (off : Int) (k : Nat)
    (hs : 3 ≤ s.length) (hp : rd.pipe = true) (h0 : 0 ≤ off)
    (hlt : off < rd.r_mr.pos) :
    (Reader.Read (NewReader s) 3).1 = s.take 3 ∧
    ((Reader.Seek (Reader.Read (NewReader s) 3).2.2 0 0).2.1.Read 3).1 = s.take 3 ∧
    (rd.Seek off 0).2.2 = some .seekBackward ∧
    (rd.ReadAt k off).1 = [] ∧
    ((rd.ReadAt k off).2.1 = some .pipedBackward ∨
      (rd.ReadAt k off).2.1 = some .seekBackward) := by
  have hseek : mrSeek rd.r_mr off 0 = (0, rd.r_mr, some .seekBackward) := by
    simp only [mrSeek]
    norm_num [not_lt.mpr h0, hlt]
  refine ⟨by rw [NewReader_read3 s hs], by rw [NewReader_seek0_read3 s hs], ?_, ?_, ?_⟩
  · simp only [Reader.Seek, hp, if_true, hseek]
  · simp only [Reader.ReadAt, hp, if_true]
    by_cases hoff : off < rd.pos
    · simp [hoff]
    · simp only [hoff, if_false, hseek]
      by_cases h00 : (0 : Int) = off
      · simp [← h00]
      · simp [h00]
  · simp only [Reader.ReadAt, hp, if_true]
    by_cases hoff : off < rd.pos
    · simp [hoff]
    · simp only [hoff, if_false, hseek]
      by_cases h00 : (0 : Int) = off
      · simp [← h00]
      · simp [h00]

theorem C7_replay_reader_witness :
    (Reader.Read (NewReader [5, 6, 7, 8, 9]) 3).1 = [5, 6, 7] ∧
    (c7rd.Seek 1 0).2.2 = some .seekBackward ∧
    ((c7rd.ReadAt 2 1).2.1 = some .pipedBackward ∨
      (c7rd.ReadAt 2 1).2.1 = some .seekBackward) := by
  have h := C7_replay_reader [5, 6, 7, 8, 9] c7rd 1 2
    (by decide) (by decide) (by decide) (by decide)
  exact ⟨h.1.trans (by decide), h.2.2.1, h.2.2.2.2⟩

end Tease
